import Mathlib

/-!
Shallow embedding of the collage engine of `src/collage_service.py`
(the function `create_collage` and the helpers it uses).

An image is modelled by its pixel dimensions together with the trace of
raster operations that have been applied to it; the pixel contents of the
raster are irrelevant to every property proved below.  Geometry is computed
over `ℚ` (Python float arithmetic idealised as exact rational arithmetic);
Python's `int()` truncation is `Int.toNat ∘ Int.floor`, which agrees with
truncation because every truncated quantity in the source is nonnegative.
Library raster primitives (`PIL.Image.crop`, `thumbnail`, `resize`,
`ImageOps.expand`) are embedded with their documented size semantics;
`Image.thumbnail` resizes the receiver in place, which the embedding
reflects by returning the updated image as the new state of the caller's
object.  The only randomness in the source (`random.randint` for the two
decorative footer counts) is threaded explicitly as a stream of values.
-/

namespace CollageService

/-- Resampling filters (`PIL.Image.Resampling`); the source only ever uses
`LANCZOS`. -/
inductive Resampling
  | lanczos
deriving DecidableEq, Repr, Inhabited

/-- One raster operation applied to an image, recorded in the image's trace. -/
inductive ImgOp
  | crop (left top right bottom : ℚ)
  | enhanceColor (factor : ℚ)
  | enhanceContrast (factor : ℚ)
  | enhanceSharpness (factor : ℚ)
  | resize (w h : ℕ) (filter : Resampling)
  | thumbnailOp (maxW maxH : ℕ) (filter : Resampling)
  | expand (border : ℕ)
deriving DecidableEq, Repr

/-- A decoded raster image: its dimensions plus the trace of operations that
produced it from the original decode. -/
structure Img where
  width : ℕ
  height : ℕ
  ops : List ImgOp
deriving DecidableEq, Repr, Inhabited

/-- Python 3 `round` on an exact rational (round half to even), which PIL
applies to the fractional crop-box coordinates. -/
def pyRound (q : ℚ) : ℤ :=
  if q - ⌊q⌋ < 1/2 then ⌊q⌋
  else if 1/2 < q - ⌊q⌋ then ⌊q⌋ + 1
  else if 2 ∣ ⌊q⌋ then ⌊q⌋ else ⌊q⌋ + 1

/-- `PIL.Image.crop`: box coordinates are rounded half-to-even to integer
pixel positions; the result has the rounded box's dimensions. -/
def Img.crop (img : Img) (left top right bottom : ℚ) : Img :=
  { width := (pyRound right - pyRound left).toNat,
    height := (pyRound bottom - pyRound top).toNat,
    ops := img.ops ++ [ImgOp.crop left top right bottom] }

/-- `ImageEnhance.Color(...).enhance(factor)`: pixel transform, size kept. -/
def Img.enhanceColor (img : Img) (factor : ℚ) : Img :=
  { width := img.width, height := img.height,
    ops := img.ops ++ [ImgOp.enhanceColor factor] }

/-- `ImageEnhance.Contrast(...).enhance(factor)`: pixel transform, size kept. -/
def Img.enhanceContrast (img : Img) (factor : ℚ) : Img :=
  { width := img.width, height := img.height,
    ops := img.ops ++ [ImgOp.enhanceContrast factor] }

/-- `ImageEnhance.Sharpness(...).enhance(factor)`: pixel transform, size kept. -/
def Img.enhanceSharpness (img : Img) (factor : ℚ) : Img :=
  { width := img.width, height := img.height,
    ops := img.ops ++ [ImgOp.enhanceSharpness factor] }

/-- `PIL.Image.resize((w, h), filter)`. -/
def Img.resize (img : Img) (w h : ℕ) (f : Resampling) : Img :=
  { width := w, height := h, ops := img.ops ++ [ImgOp.resize w h f] }

/-- `round_aspect` from `PIL.Image.thumbnail`: pick whichever of floor and
ceiling minimises `key` (floor on ties, as Python's `min` keeps the first
argument), but never return less than 1. -/
def round_aspect (q : ℚ) (key : ℤ → ℚ) : ℤ :=
  max (if key ⌊q⌋ ≤ key ⌈q⌉ then ⌊q⌋ else ⌈q⌉) 1

/-- The dimensions `PIL.Image.thumbnail((x, y))` leaves an image of size
`(w, h)` at: unchanged when it already fits in the box, otherwise one side
is set to the box bound and the other scaled by the aspect ratio. -/
def thumbnailSize (w h x y : ℕ) : ℕ × ℕ :=
  if x ≥ w ∧ y ≥ h then (w, h)
  else
    let aspect : ℚ := (w : ℚ) / (h : ℚ)
    if (x : ℚ) / (y : ℚ) ≥ aspect then
      ((round_aspect ((y : ℚ) * aspect) (fun n => |aspect - (n : ℚ) / (y : ℚ)|)).toNat, y)
    else
      (x, (round_aspect ((x : ℚ) / aspect)
        (fun n => if n = 0 then 0 else |aspect - (x : ℚ) / (n : ℚ)|)).toNat)

/-- `PIL.Image.thumbnail((x, y), filter)`; this operation resizes the
receiver in place, so its result is the new state of the caller's image. -/
def Img.thumbnail (img : Img) (x y : ℕ) (f : Resampling) : Img :=
  { width := (thumbnailSize img.width img.height x y).1,
    height := (thumbnailSize img.width img.height x y).2,
    ops := img.ops ++ [ImgOp.thumbnailOp x y f] }

/-- `PIL.ImageOps.expand(img, border)`: add `border` pixels on every side. -/
def Img.expand (img : Img) (border : ℕ) : Img :=
  { width := img.width + 2 * border, height := img.height + 2 * border,
    ops := img.ops ++ [ImgOp.expand border] }

/-- The single-image result (`frame_with_shadow`): a fresh white canvas of
the framed image's size with the enhanced image pasted at
`(frame_width, frame_width)` over a hand-drawn inset shadow. -/
structure FramedImage where
  inner : Img
  frame_width : ℕ
  shadow_width : ℕ
  width : ℕ
  height : ℕ
deriving DecidableEq, Repr, Inhabited

/-- Single-image branch of `create_collage` (source lines 76-116).  Returns
the framed result together with the final state of the caller's image
object — `img.thumbnail(...)` resizes `images[0]` in place when it exceeds
the bounds, while the two `enhance` calls build fresh images. -/
def singlePath (img0 : Img) (max_width max_height : ℕ) : FramedImage × Img :=
  let imgState :=
    if img0.width > max_width ∨ img0.height > max_height then
      img0.thumbnail max_width max_height Resampling.lanczos
    else img0
  let img1 := imgState.enhanceColor (11/10)
  let img2 := img1.enhanceContrast (21/20)
  let frame_width := 40
  let frame_img := img2.expand frame_width
  ({ inner := img2, frame_width := frame_width, shadow_width := 5,
     width := frame_img.width, height := frame_img.height }, imgState)

/-- Source lines 125-136: the fixed `optimal_layouts` table mapping image
counts to `(cols, rows)`. -/
def optimal_layouts (n : ℕ) : Option (ℕ × ℕ) :=
  if n = 1 then some (1, 1)
  else if n = 2 then some (2, 1)
  else if n = 3 then some (3, 1)
  else if n = 4 then some (2, 2)
  else if n = 5 then some (5, 1)
  else if n = 6 then some (3, 2)
  else if n = 7 then some (3, 3)
  else if n = 8 then some (4, 2)
  else if n = 9 then some (3, 3)
  else if n = 10 then some (5, 2)
  else none

/-- Source lines 139-145: table lookup with the
`cols = 5, rows = math.ceil(n / cols)` fallback; `(n + 5 - 1) / 5` is the
ceiling of `n / 5` in exact arithmetic. -/
def gridShape (n : ℕ) : ℕ × ℕ :=
  match optimal_layouts n with
  | some cr => cr
  | none => (5, (n + 5 - 1) / 5)

/-- The grid-path geometry, source lines 147-171 (field names follow the
source's local variables). -/
structure Layout where
  cols : ℕ
  rows : ℕ
  cell_width : ℕ
  cell_height : ℕ
  spacing : ℕ
  actual_width : ℕ
  actual_height : ℕ
  top_padding : ℕ
  bottom_padding : ℕ
  side_padding : ℕ
  collage_width : ℕ
  collage_height : ℕ
deriving DecidableEq, Repr, Inhabited

/-- `SPACING_PERCENT = 0.02` (source line 148). -/
def SPACING_PERCENT : ℚ := 2/100

/-- Source lines 139-171: grid shape plus derived geometry.  Every `int()`
in the source truncates a nonnegative float, so it is embedded as
`Int.toNat ∘ Int.floor` over `ℚ`. -/
def layoutFor (num_images max_width : ℕ) : Layout :=
  let cols := (gridShape num_images).1
  let rows := (gridShape num_images).2
  let avail_width : ℚ :=
    (max_width : ℚ) - ((cols - 1 : ℕ) : ℚ) * ((max_width : ℚ) * SPACING_PERCENT)
  let cell_width : ℕ := (⌊avail_width / (cols : ℚ)⌋).toNat
  let cell_height : ℕ := cell_width
  let SPACING : ℕ := (⌊(cell_width : ℚ) * SPACING_PERCENT⌋).toNat
  let actual_width := cell_width * cols + SPACING * (cols - 1)
  let actual_height := cell_height * rows + SPACING * (rows - 1)
  let TOP_PADDING : ℕ := (⌊(cell_height : ℚ) * (10/100)⌋).toNat
  let BOTTOM_PADDING : ℕ := (⌊(cell_height : ℚ) * (15/100)⌋).toNat
  let SIDE_PADDING := SPACING
  { cols := cols, rows := rows, cell_width := cell_width, cell_height := cell_height,
    spacing := SPACING, actual_width := actual_width, actual_height := actual_height,
    top_padding := TOP_PADDING, bottom_padding := BOTTOM_PADDING,
    side_padding := SIDE_PADDING,
    collage_width := actual_width + SIDE_PADDING * 2,
    collage_height := actual_height + TOP_PADDING + BOTTOM_PADDING }

/-- Source lines 211-244: the per-image normalization of the grid path —
centered square crop, then color ×1.05, contrast ×1.08, sharpness ×1.10,
then LANCZOS resize to the cell size.  (`min_dim = min(width, height)`;
the crop box is computed in float, hence exact `ℚ` here.) -/
def normalize (cell_width cell_height : ℕ) (img : Img) : Img :=
  let width : ℚ := (img.width : ℚ)
  let height : ℚ := (img.height : ℚ)
  let min_dim : ℚ := min width height
  let left := (width - min_dim) / 2
  let top := (height - min_dim) / 2
  let right := (width + min_dim) / 2
  let bottom := (height + min_dim) / 2
  let img_square := img.crop left top right bottom
  let img_c := img_square.enhanceColor (105/100)
  let img_k := img_c.enhanceContrast (108/100)
  let img_s := img_k.enhanceSharpness (11/10)
  img_s.resize cell_width cell_height Resampling.lanczos

/-- Source lines 292-299: grid cell of tile `i` — `(i % cols, i // cols)`
with the 7-image special case that overrides `grid_x` to 1 for the last
tile. -/
def gridPos (num_images cols i : ℕ) : ℕ × ℕ :=
  let grid_x := i % cols
  let grid_y := i / cols
  let grid_x := if num_images = 7 ∧ i = 6 then 1 else grid_x
  (grid_x, grid_y)

/-- One placed tile: the pixel origin computed at source lines 301-303 and
the normalized tile pasted there. -/
structure Placement where
  x : ℕ
  y : ℕ
  tile : Img
deriving DecidableEq, Repr, Inhabited

/-- Placement of tile `i` (source lines 292-344, keeping the paste origin
and the pasted tile; the decorative frame/shadow/badge drawing around it
carries no further geometry). -/
def placeTile (L : Layout) (num_images i : ℕ) (tile : Img) : Placement :=
  { x := L.side_padding + (gridPos num_images L.cols i).1 * (L.cell_width + L.spacing),
    y := L.top_padding + (gridPos num_images L.cols i).2 * (L.cell_height + L.spacing),
    tile := tile }

/-- `random.randint(a, b)` (inclusive bounds) against an explicit stream of
random values: consume one value, reduce it into `[a, b]`. -/
def randint (a b : ℕ) (r : List ℕ) : ℕ × List ℕ :=
  (a + r.headD 0 % (b + 1 - a), r.tail)

/-- The grid-path result: canvas dimensions, the geometry they came from,
the placed tiles, and the two randomized decorative footer counts. -/
structure Collage where
  width : ℕ
  height : ℕ
  layout : Layout
  placements : List Placement
  like_count : ℕ
  comment_count : ℕ
deriving DecidableEq, Repr, Inhabited

/-- Grid branch of `create_collage` (source lines 118-550).  `max_height`
is never read by this branch.  The placement loop's `if i >= num_images:
break` guard never fires because `processed_images` has exactly
`num_images` elements, so the loop is a map over `range num_images`.  The
footer's `random.randint` calls are the only consumers of the random
stream. -/
def gridPath (images : List Img) (max_width : ℕ) (r : List ℕ) : Collage × List ℕ :=
  let num_images := images.length
  let L := layoutFor num_images max_width
  let processed_images := images.map (normalize L.cell_width L.cell_height)
  let placements := (List.range num_images).map fun i =>
    placeTile L num_images i (processed_images.getD i default)
  let lr := randint 100 999 r
  let cr := randint 10 99 lr.2
  ({ width := L.collage_width, height := L.collage_height, layout := L,
     placements := placements, like_count := lr.1, comment_count := cr.1 }, cr.2)

/-- The image `create_collage` returns: the framed single image or the grid
collage. -/
inductive Output
  | single (f : FramedImage)
  | grid (c : Collage)
deriving DecidableEq, Repr, Inhabited

/-- `create_collage(images, max_width, max_height)` (source lines 53-550),
with the random stream made explicit.  The value is
`((image-or-none, error-or-none), final state of the caller's images)`:
the empty list is the reported failure, one image takes the single path
(whose in-place `thumbnail` may update the caller's image), two or more
take the grid path (which never touches the caller's images). -/
def create_collage (images : List Img) (max_width max_height : ℕ) (r : List ℕ) :
    (Option Output × Option String) × List Img :=
  match images with
  | [] => ((none, some "No images provided for collage"), [])
  | [img] =>
      let fs := singlePath img max_width max_height
      ((some (Output.single fs.1), none), [fs.2])
  | _ =>
      let cs := gridPath images max_width r
      ((some (Output.grid cs.1), none), images)

/-- The all-zero collage value, used as the off-grid default. -/
def emptyCollage : Collage :=
  { width := 0, height := 0,
    layout := { cols := 0, rows := 0, cell_width := 0, cell_height := 0,
                spacing := 0, actual_width := 0, actual_height := 0,
                top_padding := 0, bottom_padding := 0, side_padding := 0,
                collage_width := 0, collage_height := 0 },
    placements := [], like_count := 0, comment_count := 0 }

/-- The grid collage inside an optional output, defaulting to the empty
collage value. -/
def gridOf (o : Option Output) : Collage :=
  match o with
  | some (Output.grid c) => c
  | _ => emptyCollage

/-- The placed tiles of an optional output (empty off the grid path). -/
def placementsOf (o : Option Output) : List Placement :=
  (gridOf o).placements

/-- Every placed cell rectangle stays inside the canvas: clear of the side
padding horizontally and of the bottom padding vertically. -/
def placementsInBounds (c : Collage) : Prop :=
  ∀ p ∈ c.placements,
    p.x + c.layout.cell_width ≤ c.width - c.layout.side_padding ∧
    p.y + c.layout.cell_height ≤ c.height - c.layout.bottom_padding

/-! ### Supporting lemmas -/

/-- Above the table, `gridShape` is the 5-column fallback. -/
lemma gridShape_of_ten_lt (n : ℕ) (h : 10 < n) :
    gridShape n = (5, (n + 5 - 1) / 5) := by
  unfold gridShape optimal_layouts
  rw [if_neg (by omega : ¬n = 1), if_neg (by omega : ¬n = 2),
    if_neg (by omega : ¬n = 3), if_neg (by omega : ¬n = 4),
    if_neg (by omega : ¬n = 5), if_neg (by omega : ¬n = 6),
    if_neg (by omega : ¬n = 7), if_neg (by omega : ¬n = 8),
    if_neg (by omega : ¬n = 9), if_neg (by omega : ¬n = 10)]

/-- The grid always has at least one column. -/
lemma gridShape_cols_pos (n : ℕ) : 0 < (gridShape n).1 := by
  by_cases h10 : 10 < n
  · rw [gridShape_of_ten_lt n h10]; norm_num
  · have hn : n ≤ 10 := by omega
    interval_cases n <;> decide

/-- The grid never has more than five columns. -/
lemma gridShape_cols_le_five (n : ℕ) : (gridShape n).1 ≤ 5 := by
  by_cases h10 : 10 < n
  · rw [gridShape_of_ten_lt n h10]
  · have hn : n ≤ 10 := by omega
    interval_cases n <;> decide

/-- Every count fits in its grid: `n ≤ cols * rows`. -/
lemma le_cols_mul_rows (n : ℕ) (h : 2 ≤ n) :
    n ≤ (gridShape n).1 * (gridShape n).2 := by
  by_cases h10 : 10 < n
  · rw [gridShape_of_ten_lt n h10]; simp only; omega
  · have hn : n ≤ 10 := by omega
    interval_cases n <;> decide

/-- `(n + 5 - 1) / 5` is the rational ceiling of `n / 5`. -/
lemma natCeil_div_five (n : ℕ) : (((n + 5 - 1) / 5 : ℕ) : ℤ) = ⌈(n : ℚ) / 5⌉ := by
  set k : ℕ := (n + 5 - 1) / 5 with hk
  have h1 : n ≤ 5 * k := by omega
  have h2 : 5 * k < n + 5 := by omega
  symm
  rw [Int.ceil_eq_iff]
  constructor
  · rw [lt_div_iff₀ (by norm_num : (0:ℚ) < 5)]
    have h2q : (5 : ℚ) * (k : ℚ) < (n : ℚ) + 5 := by exact_mod_cast h2
    push_cast
    linarith
  · rw [div_le_iff₀ (by norm_num : (0:ℚ) < 5)]
    have h1q : (n : ℚ) ≤ 5 * (k : ℚ) := by exact_mod_cast h1
    push_cast
    linarith

/-- Reading a list back off its index range reproduces the list. -/
lemma map_range_getD {α : Type} (l : List α) (d : α) :
    (List.range l.length).map (fun i => l.getD i d) = l := by
  apply List.ext_getElem
  · simp
  · intro i h1 h2
    simp [List.getD, List.getElem?_eq_getElem h2]

/-- A cell starting at grid column `g < cols` ends within the grid span. -/
lemma span_le (cw s g cols : ℕ) (h : g + 1 ≤ cols) :
    g * (cw + s) + cw ≤ cw * cols + s * (cols - 1) := by
  obtain ⟨k, rfl⟩ : ∃ k, cols = k + 1 := ⟨cols - 1, by omega⟩
  have hgk : g ≤ k := by omega
  calc g * (cw + s) + cw ≤ k * (cw + s) + cw :=
        Nat.add_le_add_right (Nat.mul_le_mul hgk (le_refl (cw + s))) cw
    _ = cw * (k + 1) + s * (k + 1 - 1) := by simp; ring

/-- Evaluation rule for `layoutFor`: supply the grid shape and the four
floor computations and the whole record follows. -/
lemma layoutFor_build (n mW cols rows cw s tp bp : ℕ)
    (hshape : gridShape n = (cols, rows))
    (hcw : (⌊((mW : ℚ) - ((cols - 1 : ℕ) : ℚ) * ((mW : ℚ) * SPACING_PERCENT)) /
        (cols : ℚ)⌋).toNat = cw)
    (hs : (⌊(cw : ℚ) * SPACING_PERCENT⌋).toNat = s)
    (htp : (⌊(cw : ℚ) * (10/100)⌋).toNat = tp)
    (hbp : (⌊(cw : ℚ) * (15/100)⌋).toNat = bp) :
    layoutFor n mW =
      { cols := cols, rows := rows, cell_width := cw, cell_height := cw,
        spacing := s, actual_width := cw * cols + s * (cols - 1),
        actual_height := cw * rows + s * (rows - 1),
        top_padding := tp, bottom_padding := bp, side_padding := s,
        collage_width := cw * cols + s * (cols - 1) + s * 2,
        collage_height := cw * rows + s * (rows - 1) + tp + bp } := by
  simp only [layoutFor, hshape]
  rw [hcw, hs, htp, hbp]

/-- The concrete grid geometry for 4 images at `max_width = 4096`. -/
lemma layoutFor_4_4096 :
    layoutFor 4 4096 =
      { cols := 2, rows := 2, cell_width := 2007, cell_height := 2007,
        spacing := 40, actual_width := 4054, actual_height := 4054,
        top_padding := 200, bottom_padding := 301, side_padding := 40,
        collage_width := 4134, collage_height := 4555 } := by
  rw [layoutFor_build 4 4096 2 2 2007 40 200 301 (by decide)
    (by norm_num [SPACING_PERCENT]; decide)
    (by norm_num [SPACING_PERCENT]; decide)
    (by norm_num; decide)
    (by norm_num; decide)]

/-! ### Claim theorems -/

/-- Claim C1: for every image count between 2 and 10 the grid shape is
taken from the fixed table `{2:(2,1), 3:(3,1), 4:(2,2), 5:(5,1), 6:(3,2),
7:(3,3), 8:(4,2), 9:(3,3), 10:(5,2)}`, and for every count above 10 the
shape is 5 columns by `ceil(count / 5)` rows; `create_collage` builds the
grid collage with exactly this shape. -/
theorem c1_grid_shape_selection :
    (gridShape 2 = (2, 1) ∧ gridShape 3 = (3, 1) ∧ gridShape 4 = (2, 2) ∧
     gridShape 5 = (5, 1) ∧ gridShape 6 = (3, 2) ∧ gridShape 7 = (3, 3) ∧
     gridShape 8 = (4, 2) ∧ gridShape 9 = (3, 3) ∧ gridShape 10 = (5, 2)) ∧
    (∀ n : ℕ, 10 < n →
      (gridShape n).1 = 5 ∧ ((gridShape n).2 : ℤ) = ⌈(n : ℚ) / 5⌉) ∧
    (∀ (imgs : List Img) (mW mH : ℕ) (r : List ℕ), 2 ≤ imgs.length →
      (gridOf (create_collage imgs mW mH r).1.1).layout.cols =
          (gridShape imgs.length).1 ∧
      (gridOf (create_collage imgs mW mH r).1.1).layout.rows =
          (gridShape imgs.length).2) := by
  refine ⟨by decide, fun n hn => ?_, fun imgs mW mH r h => ?_⟩
  · rw [gridShape_of_ten_lt n hn]
    exact ⟨rfl, natCeil_div_five n⟩
  · match imgs, h with
    | a :: b :: t, _ => exact ⟨rfl, rfl⟩

/-- Witness for C1 at count 13 and a concrete 2-image call. -/
theorem c1_witness :
    ((gridShape 13).1 = 5 ∧ ((gridShape 13).2 : ℤ) = ⌈(13 : ℚ) / 5⌉) ∧
    (gridOf (create_collage
        [{ width := 3, height := 4, ops := [] },
         { width := 5, height := 6, ops := [] }] 100 100 []).1.1).layout.cols =
      (gridShape 2).1 :=
  ⟨c1_grid_shape_selection.2.1 13 (by norm_num),
   (c1_grid_shape_selection.2.2
      [{ width := 3, height := 4, ops := [] },
       { width := 5, height := 6, ops := [] }] 100 100 [] (by decide)).1⟩

/-- Claim C3: `create_collage` on the empty list reports the
"no images provided" failure with no image; on any non-empty list it
returns an image and a null error — the error is non-null exactly when the
input is empty, and the function is total (no uncaught exception path). -/
theorem c3_error_reporting :
    ∀ (imgs : List Img) (mW mH : ℕ) (r : List ℕ),
      ((create_collage imgs mW mH r).1.2 = none ↔ imgs ≠ []) ∧
      ((create_collage imgs mW mH r).1.1.isSome = true ↔ imgs ≠ []) ∧
      (imgs = [] → (create_collage imgs mW mH r).1 =
        (none, some "No images provided for collage")) := by
  intro imgs mW mH r
  match imgs with
  | [] => simp [create_collage]
  | [a] => simp [create_collage]
  | a :: b :: t => simp [create_collage]

/-- Witness for C3: the empty call and a one-image call, concretely. -/
theorem c3_witness :
    (create_collage [] 2048 2048 []).1 =
        (none, some "No images provided for collage") ∧
    (create_collage [{ width := 2, height := 2, ops := [] }] 2048 2048 []).1.2 =
        none :=
  ⟨(c3_error_reporting [] 2048 2048 []).2.2 rfl,
   ((c3_error_reporting [{ width := 2, height := 2, ops := [] }] 2048 2048 []).1).mpr
      (by simp)⟩

/-- Claim C4: tile `i` goes to grid cell `(i % cols, i // cols)` except
that a count of exactly 7 overrides the 7th tile's column to 1 (not
`6 % 3 = 0`); no other count/index pair is overridden. -/
theorem c4_seven_image_override :
    (∀ num_images cols i : ℕ, ¬(num_images = 7 ∧ i = 6) →
      gridPos num_images cols i = (i % cols, i / cols)) ∧
    (∀ cols : ℕ, gridPos 7 cols 6 = (1, 6 / cols)) ∧
    (gridPos 7 3 6).1 = 1 ∧ (gridPos 7 3 6).1 ≠ 6 % 3 := by
  refine ⟨fun n cols i h => ?_, fun cols => ?_, by decide, by decide⟩
  · simp [gridPos, h]
  · simp [gridPos]

/-- Witness for C4: a non-overridden index under count 9 and the
overridden 7th tile under count 7. -/
theorem c4_witness :
    gridPos 9 3 6 = (6 % 3, 6 / 3) ∧ gridPos 7 3 6 = (1, 6 / 3) :=
  ⟨c4_seven_image_override.1 9 3 6 (by simp),
   c4_seven_image_override.2.1 3⟩

/-- Claim C6: normalization records exactly a centered square crop whose
box has side `min(width, height)` and is symmetric about the image
center, then color ×1.05, contrast ×1.08, sharpness ×1.10 in that order,
then a LANCZOS resize to exactly the cell size. -/
theorem c6_normalizer_pipeline :
    ∀ (img : Img) (cell_width cell_height : ℕ),
      (normalize cell_width cell_height img).ops =
        img.ops ++
          [ImgOp.crop
              (((img.width : ℚ) - min (img.width : ℚ) (img.height : ℚ)) / 2)
              (((img.height : ℚ) - min (img.width : ℚ) (img.height : ℚ)) / 2)
              (((img.width : ℚ) + min (img.width : ℚ) (img.height : ℚ)) / 2)
              (((img.height : ℚ) + min (img.width : ℚ) (img.height : ℚ)) / 2),
           ImgOp.enhanceColor (105/100), ImgOp.enhanceContrast (108/100),
           ImgOp.enhanceSharpness (11/10),
           ImgOp.resize cell_width cell_height Resampling.lanczos] ∧
      ((img.width : ℚ) + min (img.width : ℚ) (img.height : ℚ)) / 2 -
          ((img.width : ℚ) - min (img.width : ℚ) (img.height : ℚ)) / 2 =
        min (img.width : ℚ) (img.height : ℚ) ∧
      ((img.height : ℚ) + min (img.width : ℚ) (img.height : ℚ)) / 2 -
          ((img.height : ℚ) - min (img.width : ℚ) (img.height : ℚ)) / 2 =
        min (img.width : ℚ) (img.height : ℚ) ∧
      ((img.width : ℚ) - min (img.width : ℚ) (img.height : ℚ)) / 2 +
          ((img.width : ℚ) + min (img.width : ℚ) (img.height : ℚ)) / 2 =
        (img.width : ℚ) ∧
      ((img.height : ℚ) - min (img.width : ℚ) (img.height : ℚ)) / 2 +
          ((img.height : ℚ) + min (img.width : ℚ) (img.height : ℚ)) / 2 =
        (img.height : ℚ) ∧
      (normalize cell_width cell_height img).width = cell_width ∧
      (normalize cell_width cell_height img).height = cell_height := by
  intro img cw ch
  refine ⟨?_, by ring, by ring, by ring, by ring, rfl, rfl⟩
  simp [normalize, Img.crop, Img.enhanceColor, Img.enhanceContrast,
    Img.enhanceSharpness, Img.resize]

/-- Claim C8: the tiles `create_collage` places do not depend on the random
stream — for any two random streams the placed tiles coincide, and on the
grid path they are exactly the deterministic normalization of the inputs
at the layout's cell size. -/
theorem c8_normalizer_deterministic :
    ∀ (imgs : List Img) (mW mH : ℕ) (r₁ r₂ : List ℕ),
      placementsOf (create_collage imgs mW mH r₁).1.1 =
        placementsOf (create_collage imgs mW mH r₂).1.1 ∧
      (2 ≤ imgs.length →
        (placementsOf (create_collage imgs mW mH r₁).1.1).map Placement.tile =
          imgs.map (normalize (layoutFor imgs.length mW).cell_width
            (layoutFor imgs.length mW).cell_height)) := by
  intro imgs mW mH r₁ r₂
  constructor
  · match imgs with
    | [] => rfl
    | [a] => rfl
    | a :: b :: t => rfl
  · intro h
    match imgs, h with
    | a :: b :: t, _ =>
      show ((List.range (a :: b :: t).length).map fun i =>
          placeTile _ _ i (((a :: b :: t).map _).getD i default)).map Placement.tile = _
      rw [List.map_map]
      have hlen : (a :: b :: t).length = ((a :: b :: t).map
          (normalize (layoutFor (a :: b :: t).length mW).cell_width
            (layoutFor (a :: b :: t).length mW).cell_height)).length := by
        simp
      calc ((List.range (a :: b :: t).length).map
              (Placement.tile ∘ fun i => placeTile _ _ i (((a :: b :: t).map
                (normalize (layoutFor (a :: b :: t).length mW).cell_width
                  (layoutFor (a :: b :: t).length mW).cell_height)).getD i default)))
          = (List.range (((a :: b :: t).map
              (normalize (layoutFor (a :: b :: t).length mW).cell_width
                (layoutFor (a :: b :: t).length mW).cell_height)).length)).map
              (fun i => (((a :: b :: t).map
                (normalize (layoutFor (a :: b :: t).length mW).cell_width
                  (layoutFor (a :: b :: t).length mW).cell_height)).getD i default)) := by
            rw [← hlen]
            rfl
        _ = _ := map_range_getD _ default

/-- Witness for C8 at two concrete streams and a concrete 2-image list. -/
theorem c8_witness :
    placementsOf (create_collage
        [{ width := 6, height := 4, ops := [] },
         { width := 5, height := 9, ops := [] }] 100 50 [7, 8]).1.1 =
      placementsOf (create_collage
        [{ width := 6, height := 4, ops := [] },
         { width := 5, height := 9, ops := [] }] 100 50 []).1.1 ∧
    (placementsOf (create_collage
        [{ width := 6, height := 4, ops := [] },
         { width := 5, height := 9, ops := [] }] 100 50 [7, 8]).1.1).map
        Placement.tile =
      [{ width := 6, height := 4, ops := [] },
       { width := 5, height := 9, ops := [] }].map
        (normalize (layoutFor 2 100).cell_width (layoutFor 2 100).cell_height) :=
  ⟨(c8_normalizer_deterministic
      [{ width := 6, height := 4, ops := [] },
       { width := 5, height := 9, ops := [] }] 100 50 [7, 8] []).1,
   (c8_normalizer_deterministic
      [{ width := 6, height := 4, ops := [] },
       { width := 5, height := 9, ops := [] }] 100 50 [7, 8] []).2 (by decide)⟩

/-- Claim C10: the grid canvas width is
`cell_width * cols + spacing * (cols + 1)`, which is not bounded by
`max_width`: with 4 images and `max_width = 4096` the cell is 2007, the
spacing 40, and the canvas 4134 pixels wide — strictly wider than 4096. -/
theorem c10_width_overshoot :
    (∀ n max_width : ℕ,
      (layoutFor n max_width).collage_width =
        (layoutFor n max_width).cell_width * (layoutFor n max_width).cols +
          (layoutFor n max_width).spacing * ((layoutFor n max_width).cols + 1)) ∧
    (layoutFor 4 4096).cell_width = 2007 ∧
    (layoutFor 4 4096).spacing = 40 ∧
    (layoutFor 4 4096).collage_width = 4134 ∧
    4096 < (layoutFor 4 4096).collage_width ∧
    (∀ (imgs : List Img) (mH : ℕ) (r : List ℕ), imgs.length = 4 →
      (gridOf (create_collage imgs 4096 mH r).1.1).width = 4134) := by
  refine ⟨fun n mW => ?_, by rw [layoutFor_4_4096], by rw [layoutFor_4_4096],
    by rw [layoutFor_4_4096], by rw [layoutFor_4_4096]; norm_num,
    fun imgs mH r h => ?_⟩
  · show (layoutFor n mW).actual_width + (layoutFor n mW).spacing * 2 = _
    show (layoutFor n mW).cell_width * (layoutFor n mW).cols +
        (layoutFor n mW).spacing * ((layoutFor n mW).cols - 1) +
        (layoutFor n mW).spacing * 2 = _
    have hc : 0 < (layoutFor n mW).cols := gridShape_cols_pos n
    obtain ⟨k, hk⟩ : ∃ k, (layoutFor n mW).cols = k + 1 :=
      ⟨(layoutFor n mW).cols - 1, by omega⟩
    rw [hk]
    simp only [Nat.add_sub_cancel]
    ring
  · match imgs, h with
    | [a, b, c, d], _ =>
      show (layoutFor (4 : ℕ) 4096).collage_width = 4134
      rw [layoutFor_4_4096]

/-- Witness for C10: the general width formula applied at the concrete
overshooting input, together with the concrete overshoot itself. -/
theorem c10_witness :
    (layoutFor 4 4096).collage_width =
      (layoutFor 4 4096).cell_width * (layoutFor 4 4096).cols +
        (layoutFor 4 4096).spacing * ((layoutFor 4 4096).cols + 1) ∧
    (gridOf (create_collage
        [{ width := 9, height := 9, ops := [] },
         { width := 8, height := 8, ops := [] },
         { width := 7, height := 7, ops := [] },
         { width := 6, height := 6, ops := [] }] 4096 4096 []).1.1).width = 4134 :=
  ⟨c10_width_overshoot.1 4 4096,
   c10_width_overshoot.2.2.2.2.2
      [{ width := 9, height := 9, ops := [] },
       { width := 8, height := 8, ops := [] },
       { width := 7, height := 7, ops := [] },
       { width := 6, height := 6, ops := [] }] 4096 [] (by decide)⟩

/-- A placed cell is inside the canvas, given the record identities of the
layout and the grid-cell bounds. -/
lemma place_in_bounds_of (L : Layout) (n i : ℕ)
    (hLsp : L.side_padding = L.spacing)
    (hLw : L.collage_width =
      L.cell_width * L.cols + L.spacing * (L.cols - 1) + L.spacing * 2)
    (hLh : L.collage_height =
      L.cell_height * L.rows + L.spacing * (L.rows - 1) +
        L.top_padding + L.bottom_padding)
    (hgx : (gridPos n L.cols i).1 + 1 ≤ L.cols)
    (hgy : (gridPos n L.cols i).2 + 1 ≤ L.rows)
    (tile : Img) :
    (placeTile L n i tile).x + L.cell_width ≤ L.collage_width - L.side_padding ∧
    (placeTile L n i tile).y + L.cell_height ≤
      L.collage_height - L.bottom_padding := by
  have hx := span_le L.cell_width L.spacing (gridPos n L.cols i).1 L.cols hgx
  have hy := span_le L.cell_height L.spacing (gridPos n L.cols i).2 L.rows hgy
  constructor
  · show L.side_padding + (gridPos n L.cols i).1 * (L.cell_width + L.spacing) +
      L.cell_width ≤ L.collage_width - L.side_padding
    rw [hLw, hLsp]
    have hs2 : L.spacing ≤
        L.cell_width * L.cols + L.spacing * (L.cols - 1) + L.spacing * 2 :=
      le_trans (by omega : L.spacing ≤ L.spacing * 2) (Nat.le_add_left _ _)
    rw [Nat.le_sub_iff_add_le hs2]
    linarith [hx]
  · show L.top_padding + (gridPos n L.cols i).2 * (L.cell_height + L.spacing) +
      L.cell_height ≤ L.collage_height - L.bottom_padding
    rw [hLh]
    have hb : L.bottom_padding ≤
        L.cell_height * L.rows + L.spacing * (L.rows - 1) +
          L.top_padding + L.bottom_padding := Nat.le_add_left _ _
    rw [Nat.le_sub_iff_add_le hb]
    linarith [hy]

/-- Claim C2: the grid geometry follows the spec formulas —
`availableWidth = maxWidth - (cols-1)*maxWidth*0.02`, square cells of side
`floor(availableWidth/cols)`, `spacing = floor(cellWidth*0.02)`, actual
spans, paddings of 10% and 15% of the cell height, side padding equal to
the spacing — and the returned canvas measures exactly
`(actualWidth + 2*sidePadding, actualHeight + topPadding + bottomPadding)`. -/
theorem c2_grid_geometry :
    (∀ n max_width : ℕ, 2 ≤ n → 0 < max_width →
      ((layoutFor n max_width).cell_width : ℤ) =
        ⌊((max_width : ℚ) - (((layoutFor n max_width).cols - 1 : ℕ) : ℚ) *
            ((max_width : ℚ) * (2/100))) / ((layoutFor n max_width).cols : ℚ)⌋ ∧
      (layoutFor n max_width).cell_height = (layoutFor n max_width).cell_width ∧
      ((layoutFor n max_width).spacing : ℤ) =
        ⌊((layoutFor n max_width).cell_width : ℚ) * (2/100)⌋ ∧
      (layoutFor n max_width).actual_width =
        (layoutFor n max_width).cell_width * (layoutFor n max_width).cols +
          (layoutFor n max_width).spacing * ((layoutFor n max_width).cols - 1) ∧
      (layoutFor n max_width).actual_height =
        (layoutFor n max_width).cell_height * (layoutFor n max_width).rows +
          (layoutFor n max_width).spacing * ((layoutFor n max_width).rows - 1) ∧
      ((layoutFor n max_width).top_padding : ℤ) =
        ⌊((layoutFor n max_width).cell_height : ℚ) * (10/100)⌋ ∧
      ((layoutFor n max_width).bottom_padding : ℤ) =
        ⌊((layoutFor n max_width).cell_height : ℚ) * (15/100)⌋ ∧
      (layoutFor n max_width).side_padding = (layoutFor n max_width).spacing) ∧
    (∀ (imgs : List Img) (mW mH : ℕ) (r : List ℕ), 2 ≤ imgs.length →
      ∃ c, (create_collage imgs mW mH r).1.1 = some (Output.grid c) ∧
        c.width = (layoutFor imgs.length mW).actual_width +
          2 * (layoutFor imgs.length mW).side_padding ∧
        c.height = (layoutFor imgs.length mW).actual_height +
          (layoutFor imgs.length mW).top_padding +
          (layoutFor imgs.length mW).bottom_padding) := by
  constructor
  · intro n mW hn hmw
    have hcols5 : (gridShape n).1 ≤ 5 := gridShape_cols_le_five n
    have h4 : (((gridShape n).1 - 1 : ℕ) : ℚ) ≤ 4 := by
      exact_mod_cast (show (gridShape n).1 - 1 ≤ 4 by omega)
    have hav : (0:ℚ) ≤ (mW : ℚ) -
        (((gridShape n).1 - 1 : ℕ) : ℚ) * ((mW : ℚ) * SPACING_PERCENT) := by
      have h0 : (0:ℚ) ≤ (((gridShape n).1 - 1 : ℕ) : ℚ) := Nat.cast_nonneg _
      have hm : (0:ℚ) ≤ (mW : ℚ) := Nat.cast_nonneg _
      simp only [SPACING_PERCENT]
      nlinarith
    refine ⟨?_, rfl, ?_, rfl, rfl, ?_, ?_, rfl⟩
    · exact Int.toNat_of_nonneg
        (Int.floor_nonneg.mpr (div_nonneg hav (Nat.cast_nonneg _)))
    · exact Int.toNat_of_nonneg (Int.floor_nonneg.mpr
        (mul_nonneg (Nat.cast_nonneg _) (by norm_num [SPACING_PERCENT])))
    · exact Int.toNat_of_nonneg (Int.floor_nonneg.mpr
        (mul_nonneg (Nat.cast_nonneg _) (by norm_num)))
    · exact Int.toNat_of_nonneg (Int.floor_nonneg.mpr
        (mul_nonneg (Nat.cast_nonneg _) (by norm_num)))
  · intro imgs mW mH r h
    match imgs, h with
    | a :: b :: t, _ =>
      refine ⟨(gridPath (a :: b :: t) mW r).1, rfl, ?_, rfl⟩
      show (layoutFor (a :: b :: t).length mW).actual_width +
          (layoutFor (a :: b :: t).length mW).side_padding * 2 = _
      omega

/-- Witness for C2 at two concrete images and `max_width = 100`. -/
theorem c2_witness :
    (layoutFor 2 100).cell_height = (layoutFor 2 100).cell_width ∧
    ((layoutFor 2 100).spacing : ℤ) =
      ⌊((layoutFor 2 100).cell_width : ℚ) * (2/100)⌋ ∧
    ∃ c, (create_collage
        [{ width := 30, height := 40, ops := [] },
         { width := 50, height := 60, ops := [] }] 100 100 []).1.1 =
          some (Output.grid c) ∧
      c.width = (layoutFor 2 100).actual_width +
        2 * (layoutFor 2 100).side_padding ∧
      c.height = (layoutFor 2 100).actual_height +
        (layoutFor 2 100).top_padding + (layoutFor 2 100).bottom_padding :=
  ⟨(c2_grid_geometry.1 2 100 (by norm_num) (by norm_num)).2.1,
   (c2_grid_geometry.1 2 100 (by norm_num) (by norm_num)).2.2.1,
   c2_grid_geometry.2
      [{ width := 30, height := 40, ops := [] },
       { width := 50, height := 60, ops := [] }] 100 100 [] (by decide)⟩

/-- Claim C9: on the grid path every placed cell rectangle lies inside the
canvas — `x + cellWidth ≤ collageWidth - sidePadding` and
`y + cellHeight ≤ collageHeight - bottomPadding` — for every tile,
including the 7-image override and the `count > 10` fallback. -/
theorem c9_placement_bounds :
    ∀ (imgs : List Img) (mW mH : ℕ) (r : List ℕ),
      placementsInBounds (gridOf (create_collage imgs mW mH r).1.1) := by
  intro imgs mW mH r
  match imgs with
  | [] => intro p hp; exact absurd hp (List.not_mem_nil p)
  | [a] => intro p hp; exact absurd hp (List.not_mem_nil p)
  | a :: b :: t =>
    intro p hp
    have hp' : p ∈ (List.range (a :: b :: t).length).map (fun i =>
        placeTile (layoutFor (a :: b :: t).length mW) (a :: b :: t).length i
          (((a :: b :: t).map
              (normalize (layoutFor (a :: b :: t).length mW).cell_width
                (layoutFor (a :: b :: t).length mW).cell_height)).getD i
            default)) := hp
    rw [List.mem_map] at hp'
    obtain ⟨i, hir, rfl⟩ := hp'
    rw [List.mem_range] at hir
    have hn2 : 2 ≤ (a :: b :: t).length := by
      simp only [List.length_cons]; omega
    have hcpos : 0 < (layoutFor (a :: b :: t).length mW).cols :=
      gridShape_cols_pos _
    have hmul : (a :: b :: t).length ≤
        (layoutFor (a :: b :: t).length mW).cols *
          (layoutFor (a :: b :: t).length mW).rows :=
      le_cols_mul_rows _ hn2
    have hgx : (gridPos (a :: b :: t).length
        (layoutFor (a :: b :: t).length mW).cols i).1 + 1 ≤
        (layoutFor (a :: b :: t).length mW).cols := by
      by_cases h7 : (a :: b :: t).length = 7 ∧ i = 6
      · rw [h7.1, h7.2]
        have hc3 : (layoutFor 7 mW).cols = 3 := rfl
        rw [hc3]
        decide
      · have hmx : (gridPos (a :: b :: t).length
            (layoutFor (a :: b :: t).length mW).cols i).1 =
            i % (layoutFor (a :: b :: t).length mW).cols := by
          show (if (a :: b :: t).length = 7 ∧ i = 6 then 1
            else i % (layoutFor (a :: b :: t).length mW).cols) =
              i % (layoutFor (a :: b :: t).length mW).cols
          rw [if_neg h7]
        rw [hmx]
        exact Nat.mod_lt i hcpos
    have hgy : (gridPos (a :: b :: t).length
        (layoutFor (a :: b :: t).length mW).cols i).2 + 1 ≤
        (layoutFor (a :: b :: t).length mW).rows := by
      show i / (layoutFor (a :: b :: t).length mW).cols <
        (layoutFor (a :: b :: t).length mW).rows
      rw [Nat.div_lt_iff_lt_mul hcpos]
      calc i < (a :: b :: t).length := hir
        _ ≤ (layoutFor (a :: b :: t).length mW).cols *
              (layoutFor (a :: b :: t).length mW).rows := hmul
        _ = (layoutFor (a :: b :: t).length mW).rows *
              (layoutFor (a :: b :: t).length mW).cols := Nat.mul_comm _ _
    exact place_in_bounds_of (layoutFor (a :: b :: t).length mW)
      (a :: b :: t).length i rfl rfl rfl hgx hgy _

/-- Witness for C9 at a concrete 3-image call. -/
theorem c9_witness :
    placementsInBounds (gridOf (create_collage
      [{ width := 12, height := 9, ops := [] },
       { width := 10, height := 10, ops := [] },
       { width := 8, height := 14, ops := [] }] 400 400 [5]).1.1) :=
  c9_placement_bounds
    [{ width := 12, height := 9, ops := [] },
     { width := 10, height := 10, ops := [] },
     { width := 8, height := 14, ops := [] }] 400 400 [5]

/-- `round_aspect` never exceeds an integer bound that is at least 1 and at
least the rounded quantity. -/
lemma round_aspect_le (q : ℚ) (key : ℤ → ℚ) (c : ℤ) (hc : 1 ≤ c)
    (h : q ≤ (c : ℚ)) : round_aspect q key ≤ c := by
  unfold round_aspect
  have h1 : ⌊q⌋ ≤ ⌈q⌉ := Int.floor_le_ceil q
  have h2 : ⌈q⌉ ≤ c := Int.ceil_le.mpr h
  split_ifs <;> simp only [max_le_iff] <;> omega

/-- `PIL.Image.thumbnail` dimensions never upscale, and when the image does
not already fit the box they fit within the box. -/
lemma thumbnailSize_le (w h x y : ℕ) (hw : 0 < w) (hh : 0 < h)
    (hx : 0 < x) (hy : 0 < y) :
    (thumbnailSize w h x y).1 ≤ w ∧ (thumbnailSize w h x y).2 ≤ h ∧
    (¬(x ≥ w ∧ y ≥ h) →
      (thumbnailSize w h x y).1 ≤ x ∧ (thumbnailSize w h x y).2 ≤ y) := by
  have hwq : (0:ℚ) < (w:ℚ) := by exact_mod_cast hw
  have hhq : (0:ℚ) < (h:ℚ) := by exact_mod_cast hh
  have hxq : (0:ℚ) < (x:ℚ) := by exact_mod_cast hx
  have hyq : (0:ℚ) < (y:ℚ) := by exact_mod_cast hy
  unfold thumbnailSize
  dsimp only
  split_ifs with hfit hbr
  · exact ⟨le_refl w, le_refl h, fun hc => absurd hfit hc⟩
  · -- wide-box branch: x / y ≥ w / h, so the height is pinned to y
    have hcross : (w:ℚ) * y ≤ (x:ℚ) * h := by
      rw [ge_iff_le, div_le_div_iff₀ hhq hyq] at hbr
      exact hbr
    have hyh : y < h := by
      by_contra hyh'
      push_neg at hyh'
      apply hfit
      refine ⟨?_, hyh'⟩
      have hq : (h:ℚ) ≤ (y:ℚ) := by exact_mod_cast hyh'
      have hwh : (w:ℚ) * h ≤ (x:ℚ) * h := by nlinarith
      have : (w:ℚ) ≤ (x:ℚ) := le_of_mul_le_mul_right hwh hhq
      exact_mod_cast this
    have hq_le_x : (y:ℚ) * ((w:ℚ)/(h:ℚ)) ≤ (x:ℚ) := by
      rw [← mul_div_assoc, div_le_iff₀ hhq]
      nlinarith [hcross]
    have hq_le_w : (y:ℚ) * ((w:ℚ)/(h:ℚ)) ≤ (w:ℚ) := by
      rw [← mul_div_assoc, div_le_iff₀ hhq]
      have hyhq : (y:ℚ) ≤ (h:ℚ) := by exact_mod_cast le_of_lt hyh
      nlinarith
    have h1x : (1:ℤ) ≤ (x:ℤ) := by exact_mod_cast hx
    have h1w : (1:ℤ) ≤ (w:ℤ) := by exact_mod_cast hw
    have hrx := round_aspect_le ((y:ℚ) * ((w:ℚ)/(h:ℚ)))
      (fun n => |(w:ℚ)/(h:ℚ) - (n : ℚ) / (y : ℚ)|) (x:ℤ) h1x
      (by exact_mod_cast hq_le_x)
    have hrw := round_aspect_le ((y:ℚ) * ((w:ℚ)/(h:ℚ)))
      (fun n => |(w:ℚ)/(h:ℚ) - (n : ℚ) / (y : ℚ)|) (w:ℤ) h1w
      (by exact_mod_cast hq_le_w)
    exact ⟨Int.toNat_le.mpr hrw, le_of_lt hyh,
      fun _ => ⟨Int.toNat_le.mpr hrx, le_refl y⟩⟩
  · -- tall-box branch: x / y < w / h, so the width is pinned to x
    have hlt : (x:ℚ)/(y:ℚ) < (w:ℚ)/(h:ℚ) := lt_of_not_ge hbr
    have hcross : (x:ℚ) * h < (w:ℚ) * y := by
      rw [div_lt_div_iff₀ hyq hhq] at hlt
      exact hlt
    have hxw : x < w := by
      by_contra hxw'
      push_neg at hxw'
      apply hfit
      refine ⟨hxw', ?_⟩
      have hq : (w:ℚ) ≤ (x:ℚ) := by exact_mod_cast hxw'
      have h1 : (x:ℚ) * h < (x:ℚ) * y := by nlinarith
      have : (h:ℚ) < (y:ℚ) := lt_of_mul_lt_mul_left h1 (le_of_lt hxq)
      exact_mod_cast le_of_lt this
    have hdd : (x:ℚ) / ((w:ℚ)/(h:ℚ)) = (x:ℚ) * (h:ℚ) / (w:ℚ) :=
      div_div_eq_mul_div (x:ℚ) (w:ℚ) (h:ℚ)
    have hq_le_y : (x:ℚ) / ((w:ℚ)/(h:ℚ)) ≤ (y:ℚ) := by
      rw [hdd, div_le_iff₀ hwq]
      nlinarith [hcross]
    have hq_le_h : (x:ℚ) / ((w:ℚ)/(h:ℚ)) ≤ (h:ℚ) := by
      rw [hdd, div_le_iff₀ hwq]
      have hxwq : (x:ℚ) ≤ (w:ℚ) := by exact_mod_cast le_of_lt hxw
      nlinarith
    have h1y : (1:ℤ) ≤ (y:ℤ) := by exact_mod_cast hy
    have h1h : (1:ℤ) ≤ (h:ℤ) := by exact_mod_cast hh
    have hry := round_aspect_le ((x:ℚ) / ((w:ℚ)/(h:ℚ)))
      (fun n => if n = 0 then 0 else |(w:ℚ)/(h:ℚ) - (x:ℚ) / (n : ℚ)|)
      (y:ℤ) h1y (by exact_mod_cast hq_le_y)
    have hrh := round_aspect_le ((x:ℚ) / ((w:ℚ)/(h:ℚ)))
      (fun n => if n = 0 then 0 else |(w:ℚ)/(h:ℚ) - (x:ℚ) / (n : ℚ)|)
      (h:ℤ) h1h (by exact_mod_cast hq_le_h)
    exact ⟨le_of_lt hxw, Int.toNat_le.mpr hrh,
      fun _ => ⟨le_refl x, Int.toNat_le.mpr hry⟩⟩

/-- What the single-image branch produces, as record facts. -/
lemma singlePath_spec (img : Img) (mW mH : ℕ) :
    (singlePath img mW mH).1.inner.width =
      (if img.width > mW ∨ img.height > mH
        then (thumbnailSize img.width img.height mW mH).1 else img.width) ∧
    (singlePath img mW mH).1.inner.height =
      (if img.width > mW ∨ img.height > mH
        then (thumbnailSize img.width img.height mW mH).2 else img.height) ∧
    (singlePath img mW mH).1.width = (singlePath img mW mH).1.inner.width + 80 ∧
    (singlePath img mW mH).1.height =
      (singlePath img mW mH).1.inner.height + 80 ∧
    (singlePath img mW mH).1.inner.ops = img.ops ++
      (if img.width > mW ∨ img.height > mH
        then [ImgOp.thumbnailOp mW mH Resampling.lanczos] else []) ++
      [ImgOp.enhanceColor (11/10), ImgOp.enhanceContrast (21/20)] := by
  by_cases hov : img.width > mW ∨ img.height > mH <;>
    simp [singlePath, Img.enhanceColor, Img.enhanceContrast, Img.thumbnail,
      Img.expand, hov]

/-- Claim C5: on a one-image list `create_collage` takes the single-image
path (no grid output): it shrinks only when the image exceeds the bounds
(then the result fits in the bounds), never upscales, applies saturation
×1.1 then contrast ×1.05 and nothing else, and returns an image 80 pixels
wider and taller than the (possibly shrunk) image — a 40 px frame on every
side. -/
theorem c5_single_image_path :
    ∀ (img : Img) (mW mH : ℕ) (r : List ℕ),
      0 < img.width → 0 < img.height → 0 < mW → 0 < mH →
      ∃ f : FramedImage,
        (create_collage [img] mW mH r).1 = (some (Output.single f), none) ∧
        f.width = f.inner.width + 80 ∧ f.height = f.inner.height + 80 ∧
        f.inner.width ≤ img.width ∧ f.inner.height ≤ img.height ∧
        (img.width ≤ mW → img.height ≤ mH →
          f.inner.width = img.width ∧ f.inner.height = img.height) ∧
        (img.width > mW ∨ img.height > mH →
          f.inner.width ≤ mW ∧ f.inner.height ≤ mH) ∧
        f.inner.ops = img.ops ++
          (if img.width > mW ∨ img.height > mH
            then [ImgOp.thumbnailOp mW mH Resampling.lanczos] else []) ++
          [ImgOp.enhanceColor (11/10), ImgOp.enhanceContrast (21/20)] := by
  intro img mW mH r hw hh hmw hmh
  obtain ⟨h1, h2, h3, h4, h5⟩ := singlePath_spec img mW mH
  obtain ⟨t1, t2, t3⟩ :=
    thumbnailSize_le img.width img.height mW mH hw hh hmw hmh
  refine ⟨(singlePath img mW mH).1, rfl, h3, h4, ?_, ?_, ?_, ?_, h5⟩
  · rw [h1]
    split_ifs with hov
    · exact t1
    · exact le_refl _
  · rw [h2]
    split_ifs with hov
    · exact t2
    · exact le_refl _
  · intro hwle hhle
    rw [h1, h2, if_neg (by omega), if_neg (by omega)]
    exact ⟨rfl, rfl⟩
  · intro hov
    obtain ⟨u1, u2⟩ := t3 (by omega)
    rw [h1, h2, if_pos hov, if_pos hov]
    exact ⟨u1, u2⟩

/-- Witness for C5: a 20×20 image framed against 10×10 bounds. -/
theorem c5_witness :
    ∃ f : FramedImage,
      (create_collage [{ width := 20, height := 20, ops := [] }] 10 10 []).1 =
        (some (Output.single f), none) ∧ f.width = f.inner.width + 80 := by
  obtain ⟨f, hf1, hf2, -⟩ := c5_single_image_path
    { width := 20, height := 20, ops := [] } 10 10 []
    (by norm_num) (by norm_num) (by norm_num) (by norm_num)
  exact ⟨f, hf1, hf2⟩

/-- Counterexample to claim C7: a 20×20 input against 10×10 bounds is
resized in place by `img.thumbnail(...)`, so the caller's image list is no
longer what was passed in. -/
theorem c7_counterexample :
    (create_collage [{ width := 20, height := 20, ops := [] }] 10 10 []).2 ≠
      [{ width := 20, height := 20, ops := [] }] := by
  have hval : (create_collage
      [{ width := 20, height := 20, ops := [] }] 10 10 []).2 =
      [{ width := 10, height := 10,
         ops := [ImgOp.thumbnailOp 10 10 Resampling.lanczos] }] := by
    norm_num [create_collage, singlePath, Img.thumbnail, thumbnailSize,
      round_aspect]
    decide
  rw [hval]
  simp

/-- Claim C7 amended: `create_collage` leaves the caller's images unchanged
on the grid path, and on the single-image path exactly when the image
already fits within the bounds; an oversized single image is resized in
place by `thumbnail`. -/
theorem c7_input_mutation_amended :
    ∀ (imgs : List Img) (mW mH : ℕ) (r : List ℕ),
      (2 ≤ imgs.length → (create_collage imgs mW mH r).2 = imgs) ∧
      (∀ img : Img, imgs = [img] → img.width ≤ mW → img.height ≤ mH →
        (create_collage imgs mW mH r).2 = imgs) := by
  intro imgs mW mH r
  constructor
  · intro h
    match imgs, h with
    | a :: b :: t, _ => rfl
  · intro img hEq hwle hhle
    subst hEq
    show [(singlePath img mW mH).2] = [img]
    have hst : (singlePath img mW mH).2 = img := by
      show (if img.width > mW ∨ img.height > mH
        then img.thumbnail mW mH Resampling.lanczos else img) = img
      rw [if_neg (by omega)]
    rw [hst]

/-- Witness for C7 (amended): a concrete grid call and a concrete fitting
single-image call both return the inputs unchanged. -/
theorem c7_witness :
    (create_collage [{ width := 3, height := 3, ops := [] },
        { width := 4, height := 4, ops := [] }] 7 7 []).2 =
      [{ width := 3, height := 3, ops := [] },
       { width := 4, height := 4, ops := [] }] ∧
    (create_collage [{ width := 20, height := 20, ops := [] }] 30 30 []).2 =
      [{ width := 20, height := 20, ops := [] }] :=
  ⟨(c7_input_mutation_amended [{ width := 3, height := 3, ops := [] },
      { width := 4, height := 4, ops := [] }] 7 7 []).1 (by decide),
   (c7_input_mutation_amended [{ width := 20, height := 20, ops := [] }]
      30 30 []).2 { width := 20, height := 20, ops := [] } rfl
      (by norm_num) (by norm_num)⟩

end CollageService
